import Mathlib

/-!
# Shallow embedding of `pyright-pretty` (src/unnamed/part_001)

The repository is a pretty-printer for pyright's JSON diagnostics.  This file
embeds its data model and operations in Lean:

* pure string helpers (`buildIndicator`, `pushFile`, …) become Lean functions
  on `String`;
* JavaScript's `String.prototype.repeat`, which throws a `RangeError` on a
  negative count, becomes an `Option`-valued `jsRepeat`; consequently
  `PyrightError.formatError` is `Option`-valued, `none` modelling a thrown
  exception;
* the `kleur` color functions are an injected capability, modelled by a
  structure of functions `Kleur` (the identity instance `Kleur.plain`
  corresponds to running with colors disabled);
* file reads (`node:fs/promises.readFile`) are modelled by a map
  `fs : String → Option String` from paths to contents, `none` modelling any
  read failure (the source catches all of them);
* the spawned checker process is modelled by its observable outcome: an exit
  code plus the accumulated stdout/stderr, and `JSON.parse` of the stdout into
  a `PyrightOutput` is an abstract parameter `parse : String → Option _`.

Lines are modelled as `List String`, mirroring the `output : string[]` array
the source pushes onto; the final `output.join("\n")` is
`String.intercalate "\n"`.
-/

namespace PyrightPretty

/-- The injected colorization capability (the `kleur` functions used by the
source: `bold, blue, red, yellow, dim, green`). -/
structure Kleur where
  red : String → String
  blue : String → String
  yellow : String → String
  green : String → String
  dim : String → String
  bold : String → String

/-- Colors disabled: every color function is the identity (kleur's behavior
when the output is not a TTY). -/
def Kleur.plain : Kleur := ⟨id, id, id, id, id, id⟩

/-- `const dimRed = (s) => dim(red(s))`. -/
def dimRed (k : Kleur) (s : String) : String := k.dim (k.red s)

/-- `s.repeat(n)` for a natural count: `n` copies of `s` concatenated. -/
def repeatStr (s : String) (n : Nat) : String := String.join (List.replicate n s)

/-- JavaScript `s.repeat(n)`: throws a `RangeError` when `n < 0`. -/
def jsRepeat (s : String) (n : Int) : Option String :=
  if n < 0 then none else some (repeatStr s n.toNat)

/-- JavaScript `s.padStart(n)` (pads with spaces on the left, never truncates). -/
def jsPadStart (s : String) (n : Nat) : String :=
  String.mk (List.replicate (n - s.length) ' ') ++ s

/-- JavaScript `s.substring(a, b)`: both indexes are clamped to `[0, length]`
and swapped if out of order; total, never throws. -/
def jsSubstring (s : String) (a b : Nat) : String :=
  let n := s.length
  let a := min a n
  let b := min b n
  String.mk ((s.toList.drop (min a b)).take (max a b - min a b))

/-- JavaScript `Array.prototype.slice(a, b)` for already-clamped natural
bounds: the elements with indexes in `[a, b)`. -/
def jsSlice {α : Type} (l : List α) (a b : Nat) : List α :=
  (l.drop a).take (b - a)

/-- Accumulator loop for `jsSplitNewline` (structural recursion on the
character list; `acc` holds the current segment reversed). -/
def splitNewlineAux : List Char → List Char → List String
  | [], acc => [String.mk acc.reverse]
  | c :: cs, acc =>
    if c = '\n' then String.mk acc.reverse :: splitNewlineAux cs []
    else splitNewlineAux cs (c :: acc)

/-- JavaScript `s.split("\n")`: the segments between newline characters;
`"".split("\n") = [""]` and a trailing newline yields a trailing `""`. -/
def jsSplitNewline (s : String) : List String := splitNewlineAux s.toList []

/-- JavaScript `s.trim()`: strips whitespace from both ends. -/
def jsTrim (s : String) : String :=
  String.mk (((s.toList.dropWhile Char.isWhitespace).reverse.dropWhile
    Char.isWhitespace).reverse)

/-- `interface Location` — zero-based line/column offsets. -/
structure Location where
  line : Nat
  character : Nat
deriving DecidableEq

/-- `interface Range`. -/
structure Range where
  start : Location
  «end» : Location
deriving DecidableEq

/-- `severity: "error" | "warning" | "information"`. -/
inductive Severity where
  | error
  | warning
  | information
deriving DecidableEq

/-- `interface PyrightDiagnostic`. -/
structure PyrightDiagnostic where
  file : String
  severity : Severity
  message : String
  range : Option Range
  rule : String
deriving DecidableEq

/-- `interface PyrightSummary`. -/
structure PyrightSummary where
  filesAnalyzed : Nat
  errorCount : Nat
  warningCount : Nat
  informationCount : Nat
  timeInSec : Nat
deriving DecidableEq

/-- `interface PyrightOutput`, generic over the diagnostic payload: the raw
parse yields `PyrightOutput PyrightDiagnostic`, the resolved result of `check`
carries context-enhanced `PyrightOutput PyrightError`. -/
structure PyrightOutput (α : Type) where
  version : String
  time : String
  generalDiagnostics : List α
  summary : PyrightSummary
deriving DecidableEq

/-- `class PyrightError` — a diagnostic paired with its loaded context lines.
The constructor copies every diagnostic field onto the instance; we keep the
wrapped diagnostic and expose the copies as accessors below. -/
structure PyrightError where
  diagnostic : PyrightDiagnostic
  context : List String
deriving DecidableEq

def PyrightError.file (e : PyrightError) : String := e.diagnostic.file

def PyrightError.severity (e : PyrightError) : Severity := e.diagnostic.severity

def PyrightError.message (e : PyrightError) : String := e.diagnostic.message

def PyrightError.range (e : PyrightError) : Option Range := e.diagnostic.range

def PyrightError.rule (e : PyrightError) : String := e.diagnostic.rule

/-- `pushHelp`: `` ` ${dim("help ~")} ${color(message)}` `` (the source's
default color argument is `red`; call sites pass the color explicitly). -/
def pushHelpLine (k : Kleur) (message : String) (color : String → String) : String :=
  " " ++ k.dim "help ~" ++ " " ++ color message

/-- `pushError`: `` `     ${red("^ ")} ${dimRed(message)}` ``. -/
def pushErrorLine (k : Kleur) (message : String) : String :=
  "     " ++ k.red "^ " ++ " " ++ dimRed k message

/-- `buildIndicator(start, length, message)`: padding of `start` spaces, then
`length` red carets, then (when `message` is truthy, i.e. non-empty) a space
and the dim-red message.  `none` models the `RangeError` thrown by
`" ".repeat(start)` when `start < 0`. -/
def buildIndicator (k : Kleur) (start length : Int) (message : String) : Option String := do
  let padding ← jsRepeat " " start
  let carets ← jsRepeat "^" length
  some (padding ++ k.red carets ++ (if message = "" then "" else " " ++ dimRed k message))

/-- The severity coloring in `pushFile`. -/
def formatSeverity (k : Kleur) (s : Severity) : String :=
  match s with
  | .error => k.red "error"
  | .warning => k.yellow "warning"
  | .information => k.green "information"

/-- `pushFile`: the header line — colored severity, blue `file:line:col`
(1-based) when a range is present (bare file path otherwise), and
`→ rule` when the rule is truthy (non-empty). -/
def pushFileLine (k : Kleur) (d : PyrightDiagnostic) : String :=
  let formatted :=
    match d.range with
    | some r =>
        k.blue (d.file ++ ":" ++ toString (r.start.line + 1) ++ ":"
          ++ toString (r.start.character + 1))
    | none => k.blue d.file
  let formattedRule := if d.rule = "" then "" else " → " ++ dimRed k d.rule
  formatSeverity k d.severity ++ " " ++ formatted ++ formattedRule

/-- `pushNumberedLine`: `>`/space marker, dimmed 4-padded 1-based line number,
`│` separator, then the line text. -/
def pushNumberedLine (k : Kleur) (line : String) (lineNum : Nat) (indicated : Bool) : String :=
  (if indicated then ">" else " ") ++ k.dim (jsPadStart (toString (lineNum + 1)) 4)
    ++ " │ " ++ line

/-- `pushContext` with a single string and the default identity color. -/
def pushContextLine (s : String) : String := "      │ " ++ s

/-- The highlighting of one context line inside `formatError`'s `forEach`:
if the line falls within `[range.start.line, range.end.line]`, the sub-slice
covered by the range is wrapped in red (`substring` slicing). -/
def formatContextLine (k : Kleur) (r : Range) (lineNum : Nat) (line : String) : String :=
  if r.start.line ≤ lineNum ∧ lineNum ≤ r.«end».line then
    let startChar := if lineNum = r.start.line then r.start.character else 0
    let endChar := if lineNum = r.«end».line then r.«end».character else line.length
    jsSubstring line 0 startChar ++ k.red (jsSubstring line startChar endChar)
      ++ jsSubstring line endChar line.length
  else line

/-- The body of `formatError`'s `context.forEach((line, i) => …)`, rendered
line by line starting at absolute line number `lineNum`.  Each iteration
pushes the numbered (possibly highlighted) source line, then, on the start
line of a single-line range, the underline indicator, and, on the end line of
a multi-line range, the single-caret indicator at `end.character - 1` (whose
construction fails when `end.character = 0`). -/
def renderLines (k : Kleur) (r : Range) (rule : String) :
    Nat → List String → Option (List String)
  | _, [] => some []
  | lineNum, line :: rest => do
    let isWithinErrorLineRange := decide (r.start.line ≤ lineNum ∧ lineNum ≤ r.«end».line)
    let numbered := pushNumberedLine k (formatContextLine k r lineNum line) lineNum
      isWithinErrorLineRange
    let ind1 ←
      if lineNum = r.start.line ∧ r.start.line = r.«end».line then
        (buildIndicator k (r.start.character : Int)
          (max 1 ((r.«end».character : Int) - (r.start.character : Int))) rule).map
          (fun s => [pushContextLine s])
      else some []
    let ind2 ←
      if lineNum = r.«end».line ∧ r.start.line ≠ r.«end».line then
        (buildIndicator k ((r.«end».character : Int) - 1) 1 rule).map
          (fun s => [pushContextLine s])
      else some []
    let tail ← renderLines k r rule (lineNum + 1) rest
    some (numbered :: (ind1 ++ ind2 ++ tail))

/-- `PyrightError.formatError`, as the list of pushed output lines (the
source's `output` array just before `output.join("\n")`).  `none` models a
thrown `RangeError` from the multi-line indicator. -/
def PyrightError.formatErrorLines (k : Kleur) (e : PyrightError) (contextLines : Nat) :
    Option (List String) :=
  match e.range with
  | none =>
    -- file-level errors
    let header := pushFileLine k e.diagnostic
    if e.rule = "reportImportCycles" then
      let errorLines := jsSplitNewline e.message
      let helpMsg := errorLines.headD ""
      let cycleImports := errorLines.drop 1
      some (header :: cycleImports.map (fun c => ">     │     " ++ jsTrim c)
        ++ [pushHelpLine k helpMsg k.dim])
    else
      some [header, pushErrorLine k e.message, pushHelpLine k e.rule k.dim,
        "---> " ++ e.rule ++ " needs custom handling"]
  | some r =>
    let header := pushFileLine k e.diagnostic
    if e.context.length ≠ 0 then
      let startLine := (max 0 ((r.start.line : Int) - (contextLines : Int))).toNat
      (renderLines k r e.rule startLine e.context).map
        (fun body => header :: body ++ [pushHelpLine k e.message k.red])
    else
      some [header]

/-- `PyrightError.formatError` proper: the pushed lines joined by `"\n"`.
The source's default `contextLines` is `2`. -/
def PyrightError.formatError (k : Kleur) (e : PyrightError) (contextLines : Nat) :
    Option String :=
  (e.formatErrorLines k contextLines).map (String.intercalate "\n")

/-- `Pyright.getContext`: with no range, the empty sequence; otherwise read
the file (any failure is caught and yields the empty sequence), split on
`"\n"`, and slice the window
`[max(0, start.line − contextLines), min(lines.length, end.line + contextLines + 1))`.
The source's default `contextLines` is `2`. -/
def getContext (fs : String → Option String) (d : PyrightDiagnostic)
    (contextLines : Nat) : List String :=
  match d.range with
  | none => []
  | some r =>
    match fs d.file with
    | none => []
    | some content =>
      let lines := jsSplitNewline content
      let startLine := (max 0 ((r.start.line : Int) - (contextLines : Int))).toNat
      let endLine := min lines.length (r.«end».line + contextLines + 1)
      jsSlice lines startLine endLine

/-- `check(files: string | string[], …)` — the `files` argument. -/
inductive FilesArg where
  | single (file : String)
  | many (files : List String)

/-- `Array.isArray(files) ? files : [files]`. -/
def FilesArg.toList : FilesArg → List String
  | .single f => [f]
  | .many fs => fs

/-- The observable outcome of the spawned `pyright` process together with the
filesystem the context loader reads from. -/
structure CheckRun where
  exitCode : Int
  stdout : String
  stderr : String
  fs : String → Option String

/-- `Pyright.check`: exit code `0` resolves a synthesized empty result
(stdout is never parsed on that path); otherwise the stdout is parsed
(`parse` abstracts `JSON.parse`), each diagnostic is wrapped in a
`PyrightError` carrying its loaded context (`Promise.all` over the original
list preserves order — a `List.map`), and a parse failure rejects with a
message embedding `stderr || stdout`. -/
def check (parse : String → Option (PyrightOutput PyrightDiagnostic))
    (run : CheckRun) (files : FilesArg) (options : List String) :
    Except String (PyrightOutput PyrightError) :=
  let fileList := files.toList
  let _args := "--outputjson" :: (options ++ fileList)
  if run.exitCode = 0 then
    .ok { version := "", time := "", generalDiagnostics := [],
          summary := { filesAnalyzed := fileList.length, errorCount := 0,
                       warningCount := 0, informationCount := 0, timeInSec := 0 } }
  else
    match parse run.stdout with
    | some output =>
      .ok { output with
            generalDiagnostics :=
              output.generalDiagnostics.map
                (fun d => PyrightError.mk d (getContext run.fs d 2)) }
    | none =>
      .error ("Failed to parse pyright output: "
        ++ (if run.stderr = "" then run.stdout else run.stderr))

/-! ## Concrete fixtures used by witnesses and counterexamples -/

def e5 : PyrightError := ⟨⟨"w.py", .warning, "oops", some ⟨⟨3, 4⟩, ⟨3, 9⟩⟩, "ruleW"⟩, []⟩

def e6 : PyrightError :=
  ⟨⟨"c.py", .error, "cycle detected\nfileA.py\nfileB.py", none, "reportImportCycles"⟩, []⟩

def d8a : PyrightDiagnostic := ⟨"norange.py", .information, "note", none, ""⟩

def d8b : PyrightDiagnostic := ⟨"gone.py", .error, "boom", some ⟨⟨1, 0⟩, ⟨1, 5⟩⟩, "rX"⟩

def junkDiag : PyrightDiagnostic := ⟨"junk.py", .error, "junk", none, "junk"⟩

def junkOut : PyrightOutput PyrightDiagnostic := ⟨"9", "9", [junkDiag], ⟨5, 5, 5, 5, 5⟩⟩

def dA10 : PyrightDiagnostic := ⟨"fa", .error, "mA", some ⟨⟨0, 0⟩, ⟨0, 1⟩⟩, "rA"⟩

def dB10 : PyrightDiagnostic := ⟨"fb", .warning, "mB", none, "rB"⟩

def outW10 : PyrightOutput PyrightDiagnostic := ⟨"1.0", "now", [dA10, dB10], ⟨1, 1, 1, 0, 3⟩⟩

def runW10 : CheckRun := ⟨2, "json", "", fun p => if p = "fa" then some "x\ny" else none⟩

def eW2 : PyrightError :=
  ⟨⟨"m.py", .error, "multi", some ⟨⟨4, 2⟩, ⟨6, 5⟩⟩, "rM"⟩,
    ["l2", "l3", "l4", "l5", "l6", "l7", "l8"]⟩

def eC2 : PyrightError :=
  ⟨⟨"u.py", .error, "m0", some ⟨⟨0, 0⟩, ⟨1, 0⟩⟩, "r0"⟩, ["a", "b", "c"]⟩

def eW1 : PyrightError :=
  ⟨⟨"f.py", .error, "msg here", some ⟨⟨5, 2⟩, ⟨5, 7⟩⟩, "reportX"⟩,
    ["l3", "l4", "l5", "l6", "l7"]⟩

def eC1 : PyrightError :=
  ⟨⟨"s.py", .error, "m1", some ⟨⟨5, 0⟩, ⟨5, 3⟩⟩, "reportGeneral"⟩, ["x"]⟩

def eW3 : PyrightError :=
  ⟨⟨"f.py", .error, "m", some ⟨⟨4, 2⟩, ⟨6, 5⟩⟩, "r"⟩,
    ["l2", "l3", "l4", "l5", "l6", "l7", "l8"]⟩

def eC3 : PyrightError :=
  ⟨⟨"g.py", .error, "m", some ⟨⟨4, 2⟩, ⟨6, 0⟩⟩, "r"⟩,
    ["l2", "l3", "l4", "l5", "l6", "l7", "l8"]⟩

def content4 : String := "b0\nb1\nb2\nb3\nb4\nb5\nb6\nb7\nb8\nb9\nb10\nb11\nb12"

def fs4 : String → Option String := fun p => if p = "h" then some content4 else none

def d4 : PyrightDiagnostic := ⟨"h", .error, "m", some ⟨⟨5, 0⟩, ⟨5, 4⟩⟩, "r4"⟩

def contentC4 : String := "a\nb\nc\nd\ne"

def fsC4 : String → Option String := fun p => if p = "f" then some contentC4 else none

def dC4 : PyrightDiagnostic := ⟨"f", .error, "m", some ⟨⟨6, 0⟩, ⟨6, 0⟩⟩, "rC"⟩

def content20 : String :=
  "a0\na1\na2\na3\na4\na5\na6\na7\na8\na9\na10\na11\na12\na13\na14\na15\na16\na17\na18\na19"

def fs7 : String → Option String := fun p => if p = "g" then some content20 else none

def d7 : PyrightDiagnostic := ⟨"g", .error, "m", some ⟨⟨10, 0⟩, ⟨10, 4⟩⟩, "r"⟩

/-! ## Helper lemmas -/

theorem jsRepeat_of_nonneg (s : String) (n : Int) (h : 0 ≤ n) :
    jsRepeat s n = some (repeatStr s n.toNat) := by
  simp [jsRepeat, Int.not_lt.mpr h]

theorem buildIndicator_of_nonneg (k : Kleur) (a b : Int) (m : String)
    (ha : 0 ≤ a) (hb : 0 ≤ b) :
    buildIndicator k a b m =
      some (repeatStr " " a.toNat ++ k.red (repeatStr "^" b.toNat)
        ++ (if m = "" then "" else " " ++ dimRed k m)) := by
  unfold buildIndicator
  rw [jsRepeat_of_nonneg _ _ ha, jsRepeat_of_nonneg _ _ hb]
  rfl

/-! ## Claims about the header-only and file-level rendering paths -/

/-- Claim C5: with a range present but empty context, `formatError` emits only
the header line — colored severity, blue 1-based `file:line:col`, and the
arrow-separated rule when the rule is non-empty; no context block, no
indicator and no help line follow. -/
theorem formatError_empty_context_header_only (k : Kleur) (e : PyrightError) (r : Range)
    (contextLines : Nat) (hr : e.range = some r) (hc : e.context = []) :
    e.formatErrorLines k contextLines = some [pushFileLine k e.diagnostic] ∧
    pushFileLine k e.diagnostic =
      formatSeverity k e.severity ++ " "
        ++ k.blue (e.file ++ ":" ++ toString (r.start.line + 1) ++ ":"
            ++ toString (r.start.character + 1))
        ++ (if e.rule = "" then "" else " → " ++ dimRed k e.rule) := by
  have hr' : e.diagnostic.range = some r := hr
  constructor
  · simp [PyrightError.formatErrorLines, PyrightError.range, hr', hc]
  · simp [pushFileLine, hr']
    rfl

theorem formatError_empty_context_header_only_witness :
    PyrightError.formatErrorLines Kleur.plain e5 2 = some ["warning w.py:4:5 → ruleW"] := by
  rw [(formatError_empty_context_header_only Kleur.plain e5 ⟨⟨3, 4⟩, ⟨3, 9⟩⟩ 2 rfl rfl).1]
  decide

/-- Claim C6: with no range and rule `reportImportCycles`, the message is split
on newlines; every line after the first becomes a marker-prefixed cycle-member
line, and only the first line appears in the dimmed help line. -/
theorem formatError_importCycles (k : Kleur) (e : PyrightError) (contextLines : Nat)
    (hr : e.range = none) (hrule : e.rule = "reportImportCycles") :
    e.formatErrorLines k contextLines =
      some (pushFileLine k e.diagnostic
        :: ((jsSplitNewline e.message).drop 1).map (fun c => ">     │     " ++ jsTrim c)
        ++ [" " ++ k.dim "help ~" ++ " " ++ k.dim ((jsSplitNewline e.message).headD "")]) := by
  have hr' : e.diagnostic.range = none := hr
  simp [PyrightError.formatErrorLines, PyrightError.range, hr', hrule, pushHelpLine]

theorem formatError_importCycles_witness :
    PyrightError.formatErrorLines Kleur.plain e6 2 =
      some ["error c.py → reportImportCycles",
        ">     │     fileA.py",
        ">     │     fileB.py",
        " help ~ cycle detected"] := by
  rw [formatError_importCycles Kleur.plain e6 2 rfl rfl]
  decide

/-! ## Claims about the context loader's error handling -/

/-- Claim C8: the context loader returns the empty sequence when the range is
absent (independently of the filesystem: no read is consulted), and returns
the empty sequence when reading the diagnostic's file fails; it never
propagates an error (it is a total function into `List String`). -/
theorem getContext_swallows_failures (fs fs' : String → Option String)
    (d : PyrightDiagnostic) (contextLines : Nat) :
    (d.range = none →
      getContext fs d contextLines = [] ∧
      getContext fs d contextLines = getContext fs' d contextLines) ∧
    (fs d.file = none → getContext fs d contextLines = []) := by
  refine ⟨fun h => ?_, fun h => ?_⟩
  · simp [getContext, h]
  · cases hr : d.range with
    | none => simp [getContext, hr]
    | some r => simp [getContext, hr, h]

theorem getContext_swallows_failures_witness :
    getContext (fun _ => some "text") d8a 2 = [] ∧
    getContext (fun _ => some "text") d8a 2 = getContext (fun _ => none) d8a 2 ∧
    getContext (fun _ => none) d8b 2 = [] := by
  have h1 := getContext_swallows_failures (fun _ => some "text") (fun _ => none) d8a 2
  have h2 := getContext_swallows_failures (fun _ => none) (fun _ => none) d8b 2
  exact ⟨(h1.1 rfl).1, (h1.1 rfl).2, h2.2 rfl⟩

/-! ## Claims about `check` -/

/-- Claim C9: when the checker exits with status 0, `check` resolves a
synthesized result with empty `generalDiagnostics` and
`summary.filesAnalyzed` equal to the number of requested file targets,
independently of the parser and of everything accumulated on
stdout/stderr — stdout is never parsed on this path. -/
theorem check_exit_zero_synthesizes_empty
    (parse parse' : String → Option (PyrightOutput PyrightDiagnostic))
    (run run' : CheckRun) (files : FilesArg) (options options' : List String)
    (h : run.exitCode = 0) (h' : run'.exitCode = 0) :
    check parse run files options =
      Except.ok ⟨"", "", [], ⟨files.toList.length, 0, 0, 0, 0⟩⟩ ∧
    check parse run files options = check parse' run' files options' := by
  constructor
  · simp [check, h]
  · simp [check, h, h']

theorem check_exit_zero_synthesizes_empty_witness :
    check (fun _ => none) ⟨0, "not json at all", "noise", fun _ => none⟩
        (FilesArg.many ["a.py", "b.py"]) [] =
      Except.ok ⟨"", "", [], ⟨2, 0, 0, 0, 0⟩⟩ ∧
    check (fun _ => none) ⟨0, "not json at all", "noise", fun _ => none⟩
        (FilesArg.many ["a.py", "b.py"]) [] =
      check (fun _ => some junkOut) ⟨0, "", "", fun _ => some "zzz"⟩
        (FilesArg.many ["a.py", "b.py"]) [] := by
  have h := check_exit_zero_synthesizes_empty (fun _ => none) (fun _ => some junkOut)
    ⟨0, "not json at all", "noise", fun _ => none⟩ ⟨0, "", "", fun _ => some "zzz"⟩
    (FilesArg.many ["a.py", "b.py"]) [] [] rfl rfl
  exact ⟨h.1, h.2⟩

/-- Claim C10: when the checker exits non-zero and stdout parses, the resolved
result passes `version`, `time` and `summary` through unchanged and replaces
only `generalDiagnostics`: element `i` of the result is element `i` of the
parsed list wrapped with its loaded context, in original list order. -/
theorem check_nonzero_wraps_in_order
    (parse : String → Option (PyrightOutput PyrightDiagnostic)) (run : CheckRun)
    (files : FilesArg) (options : List String) (out : PyrightOutput PyrightDiagnostic)
    (h : run.exitCode ≠ 0) (hp : parse run.stdout = some out) :
    ∃ res, check parse run files options = Except.ok res ∧
      res.version = out.version ∧ res.time = out.time ∧ res.summary = out.summary ∧
      res.generalDiagnostics =
        out.generalDiagnostics.map (fun d => PyrightError.mk d (getContext run.fs d 2)) ∧
      ∀ i : Nat, res.generalDiagnostics[i]? =
        out.generalDiagnostics[i]?.map (fun d => PyrightError.mk d (getContext run.fs d 2)) := by
  have hres : check parse run files options =
      Except.ok { out with
        generalDiagnostics :=
          out.generalDiagnostics.map (fun d => PyrightError.mk d (getContext run.fs d 2)) } := by
    simp [check, h, hp]
  exact ⟨_, hres, rfl, rfl, rfl, rfl, fun i => by simp⟩

theorem check_nonzero_wraps_in_order_witness :
    ∃ res, check (fun s => if s = "json" then some outW10 else none) runW10
        (FilesArg.single "t.py") [] = Except.ok res ∧
      res.version = "1.0" ∧
      res.generalDiagnostics[0]? = some (PyrightError.mk dA10 ["x", "y"]) ∧
      res.generalDiagnostics[1]? = some (PyrightError.mk dB10 []) := by
  obtain ⟨res, h1, h2, h3, h4, h5, h6⟩ :=
    check_nonzero_wraps_in_order (fun s => if s = "json" then some outW10 else none) runW10
      (FilesArg.single "t.py") [] outW10 (by decide) (by decide)
  refine ⟨res, h1, ?_, ?_, ?_⟩
  · exact h2.trans rfl
  · rw [h6 0]
    decide
  · rw [h6 1]
    decide

/-! ## The rendered context block, characterized -/

/-- The `forEach` loop of `formatError`, characterized as one `flatMap` over
the enumerated context: every line gets its numbered rendering, the start line
of a single-line range is followed by the underline indicator, and the end
line of a multi-line range is followed by the single-caret indicator.  The
hypothesis rules out the one failing configuration (multi-line range with
`end.character = 0`). -/
theorem renderLines_eq (k : Kleur) (r : Range) (rule : String)
    (h : r.start.line = r.«end».line ∨ 1 ≤ r.«end».character) (ctx : List String) :
    ∀ n : Nat,
      renderLines k r rule n ctx =
        some ((ctx.enumFrom n).flatMap fun p =>
          pushNumberedLine k (formatContextLine k r p.1 p.2) p.1
              (decide (r.start.line ≤ p.1 ∧ p.1 ≤ r.«end».line)) ::
            ((if p.1 = r.start.line ∧ r.start.line = r.«end».line then
                [pushContextLine (repeatStr " " r.start.character
                  ++ k.red (repeatStr "^" (max 1 (r.«end».character - r.start.character)))
                  ++ (if rule = "" then "" else " " ++ dimRed k rule))]
              else [])
              ++ (if p.1 = r.«end».line ∧ r.start.line ≠ r.«end».line then
                [pushContextLine (repeatStr " " (r.«end».character - 1)
                  ++ k.red (repeatStr "^" 1)
                  ++ (if rule = "" then "" else " " ++ dimRed k rule))]
              else []))) := by
  induction ctx with
  | nil => intro n; simp [renderLines]
  | cons line rest ih =>
    intro n
    have e1 : ((r.start.character : Int)).toNat = r.start.character := by omega
    have e2 : (max 1 ((r.«end».character : Int) - (r.start.character : Int))).toNat
        = max 1 (r.«end».character - r.start.character) := by omega
    have e3 : ((r.«end».character : Int) - 1).toNat = r.«end».character - 1 := by omega
    simp only [renderLines]
    by_cases h1 : n = r.start.line ∧ r.start.line = r.«end».line
    · have h2 : ¬(n = r.«end».line ∧ r.start.line ≠ r.«end».line) := fun hx => hx.2 h1.2
      rw [if_pos h1,
        buildIndicator_of_nonneg k _ _ rule (Int.natCast_nonneg _) (by omega)]
      simp [ih, if_pos h1, if_neg h2, e1, e2]
    · by_cases h2 : n = r.«end».line ∧ r.start.line ≠ r.«end».line
      · have hch : 1 ≤ r.«end».character := by
          rcases h with hs | hc
          · exact absurd hs h2.2
          · exact hc
        have hb := buildIndicator_of_nonneg k ((r.«end».character : Int) - 1) 1 rule
          (by omega) (by omega)
        rw [if_neg h1]
        simp [ih, if_neg h1, if_pos h2, hb, e3]
      · rw [if_neg h1]
        simp [ih, if_neg h1, if_neg h2]

/-- `formatError` with a range and non-empty context: header, the rendered
context block of `renderLines_eq`, and the dimmed help line carrying the full
message. -/
theorem formatErrorLines_context (k : Kleur) (e : PyrightError) (r : Range) (N : Nat)
    (hr : e.range = some r) (hc : e.context ≠ [])
    (h : r.start.line = r.«end».line ∨ 1 ≤ r.«end».character) :
    e.formatErrorLines k N =
      some (pushFileLine k e.diagnostic ::
        ((e.context.enumFrom (r.start.line - N)).flatMap fun p =>
          pushNumberedLine k (formatContextLine k r p.1 p.2) p.1
              (decide (r.start.line ≤ p.1 ∧ p.1 ≤ r.«end».line)) ::
            ((if p.1 = r.start.line ∧ r.start.line = r.«end».line then
                [pushContextLine (repeatStr " " r.start.character
                  ++ k.red (repeatStr "^" (max 1 (r.«end».character - r.start.character)))
                  ++ (if e.rule = "" then "" else " " ++ dimRed k e.rule))]
              else [])
              ++ (if p.1 = r.«end».line ∧ r.start.line ≠ r.«end».line then
                [pushContextLine (repeatStr " " (r.«end».character - 1)
                  ++ k.red (repeatStr "^" 1)
                  ++ (if e.rule = "" then "" else " " ++ dimRed k e.rule))]
              else [])))
        ++ [pushHelpLine k e.message k.red]) := by
  have hr' : e.diagnostic.range = some r := hr
  have hlen : e.context.length ≠ 0 := by simpa using hc
  have hstart : (max 0 ((r.start.line : Int) - (N : Int))).toNat = r.start.line - N := by
    omega
  simp only [PyrightError.formatErrorLines, PyrightError.range, hr', if_pos hlen]
  rw [hstart, renderLines_eq k r e.rule h e.context (r.start.line - N)]
  rfl

/-- Position bookkeeping for the rendered block: in a `flatMap` that appends
the marker `b` exactly after the line numbered `t`, the numbered line sits at
index `t - n` and `b` directly below it. -/
theorem flatMap_marker_getElem (f : Nat → String → String) (b : String) (t : Nat) :
    ∀ (ctx : List String) (n : Nat), n ≤ t → t - n < ctx.length →
      (((ctx.enumFrom n).flatMap fun p =>
          f p.1 p.2 :: (if p.1 = t then [b] else []))[t - n]?
        = some (f t (ctx.getD (t - n) ""))) ∧
      ((ctx.enumFrom n).flatMap fun p =>
          f p.1 p.2 :: (if p.1 = t then [b] else []))[t - n + 1]?
        = some b := by
  intro ctx
  induction ctx with
  | nil => intro n h1 h2; simp at h2
  | cons line rest ih =>
    intro n h1 h2
    rw [List.enumFrom_cons, List.flatMap_cons]
    by_cases hn : n = t
    · subst hn
      simp
    · have hlt : n < t := lt_of_le_of_ne h1 hn
      have ht : t - n = (t - (n + 1)) + 1 := by omega
      rw [if_neg hn, ht]
      have hih := ih (n + 1) (by omega) (by simp at h2; omega)
      simpa using hih

/-- Indices strictly above `t` contribute no marker. -/
theorem countP_enumFrom_zero_of_lt (t : Nat) :
    ∀ (ctx : List String) (n : Nat), t < n →
      ((ctx.enumFrom n).countP fun p => decide (p.1 = t)) = 0 := by
  intro ctx
  induction ctx with
  | nil => intro n _; simp
  | cons line rest ih =>
    intro n h
    have hne : ¬(n = t) := by omega
    simp [List.countP_cons, ih (n + 1) (by omega), hne]

/-- When `t` falls inside the enumerated window, exactly one element carries
index `t`. -/
theorem countP_enumFrom_one (t : Nat) :
    ∀ (ctx : List String) (n : Nat), n ≤ t → t - n < ctx.length →
      ((ctx.enumFrom n).countP fun p => decide (p.1 = t)) = 1 := by
  intro ctx
  induction ctx with
  | nil => intro n h1 h2; simp at h2
  | cons line rest ih =>
    intro n h1 h2
    by_cases hn : n = t
    · subst hn
      simp [List.countP_cons, countP_enumFrom_zero_of_lt n rest (n + 1) (by omega)]
    · have hlt : n < t := lt_of_le_of_ne h1 hn
      simp [List.countP_cons, hn, ih (n + 1) (by omega) (by simp at h2; omega)]

/-! ## Claim C2: totality of `formatError` -/

/-- Claim C2 (amended): `formatError` always terminates with a string
provided every multi-line range has `end.character ≥ 1`; the excluded case —
a multi-line range with `end.character = 0` whose end line is rendered — makes
the JavaScript source throw (`" ".repeat(-1)`), see the counterexample. -/
theorem formatError_total_of_no_underflow (k : Kleur) (e : PyrightError) (N : Nat)
    (h : ∀ r, e.range = some r → r.start.line = r.«end».line ∨ 1 ≤ r.«end».character) :
    ∃ s, e.formatError k N = some s := by
  rw [← Option.isSome_iff_exists]
  have hs : (e.formatErrorLines k N).isSome := by
    cases hr : e.range with
    | none =>
      have hr' : e.diagnostic.range = none := hr
      simp only [PyrightError.formatErrorLines, PyrightError.range, hr']
      split <;> simp
    | some r =>
      by_cases hc : e.context = []
      · have hr' : e.diagnostic.range = some r := hr
        simp [PyrightError.formatErrorLines, PyrightError.range, hr', hc]
      · rw [formatErrorLines_context k e r N hr hc (h r hr)]
        rfl
  simpa [PyrightError.formatError] using hs

theorem formatError_total_of_no_underflow_witness :
    ∃ s, PyrightError.formatError Kleur.plain eW2 2 = some s := by
  apply formatError_total_of_no_underflow
  intro r hr
  have hr' : some (⟨⟨4, 2⟩, ⟨6, 5⟩⟩ : Range) = some r := hr
  cases Option.some.inj hr'
  right
  decide

/-- Counterexample to claim C2 as stated: for a multi-line range with
`end.character = 0` whose end line falls in the rendered window, the
multi-line indicator calls `" ".repeat(end.character - 1)` with a negative
count, so formatting fails (`none`, modelling the thrown `RangeError`). -/
theorem formatError_underflow_cex :
    PyrightError.formatError Kleur.plain eC2 2 = none := by decide

/-! ## Claim C1: the single-line indicator -/

/-- Claim C1 (amended): for a single-line range whose start line is reached by
the context window (`min contextLines start.line < context.length`), directly
under the start line's numbered rendering sits the indicator line — padding of
exactly `start.character` spaces, exactly `max 1 (end.character −
start.character)` carets, and the dimmed rule name when the rule is
non-empty. -/
theorem formatError_singleLine_indicator (k : Kleur) (e : PyrightError) (r : Range)
    (N : Nat) (hr : e.range = some r) (hsingle : r.start.line = r.«end».line)
    (hwin : min N r.start.line < e.context.length) :
    ∃ out, e.formatErrorLines k N = some out ∧
      out[min N r.start.line + 1]? =
        some (pushNumberedLine k
          (formatContextLine k r r.start.line (e.context.getD (min N r.start.line) ""))
          r.start.line true) ∧
      out[min N r.start.line + 2]? =
        some (pushContextLine (repeatStr " " r.start.character
          ++ k.red (repeatStr "^" (max 1 (r.«end».character - r.start.character)))
          ++ (if e.rule = "" then "" else " " ++ dimRed k e.rule))) := by
  have h1 : r.start.line - N ≤ r.start.line := by omega
  have hidx : r.start.line - (r.start.line - N) = min N r.start.line := by omega
  have h2 : r.start.line - (r.start.line - N) < e.context.length := by
    rw [hidx]; exact hwin
  have hc : e.context ≠ [] := by
    intro hnil
    rw [hnil] at h2
    simp at h2
  have hbody := formatErrorLines_context k e r N hr hc (Or.inl hsingle)
  simp only [← hsingle, and_true, ne_eq, not_true_eq_false, and_false, if_false,
    List.append_nil, eq_self_iff_true] at hbody
  have hpos := flatMap_marker_getElem
    (fun i l => pushNumberedLine k (formatContextLine k r i l) i
      (decide (r.start.line ≤ i ∧ i ≤ r.start.line)))
    (pushContextLine (repeatStr " " r.start.character
      ++ k.red (repeatStr "^" (max 1 (r.«end».character - r.start.character)))
      ++ (if e.rule = "" then "" else " " ++ dimRed k e.rule)))
    r.start.line e.context (r.start.line - N) h1 h2
  have hd : decide (r.start.line ≤ r.start.line ∧ r.start.line ≤ r.start.line) = true := by
    simp
  simp only [hd, hidx] at hpos
  obtain ⟨hpos1, hpos2⟩ := hpos
  have hlen1 : min N r.start.line <
      (((e.context.enumFrom (r.start.line - N)).flatMap fun p =>
        pushNumberedLine k (formatContextLine k r p.1 p.2) p.1
            (decide (r.start.line ≤ p.1 ∧ p.1 ≤ r.start.line)) ::
          (if p.1 = r.start.line then
            [pushContextLine (repeatStr " " r.start.character
              ++ k.red (repeatStr "^" (max 1 (r.«end».character - r.start.character)))
              ++ (if e.rule = "" then "" else " " ++ dimRed k e.rule))]
          else []))).length := by
    obtain ⟨hlt, -⟩ := List.getElem?_eq_some_iff.mp hpos1
    exact hlt
  have hlen2 : min N r.start.line + 1 <
      (((e.context.enumFrom (r.start.line - N)).flatMap fun p =>
        pushNumberedLine k (formatContextLine k r p.1 p.2) p.1
            (decide (r.start.line ≤ p.1 ∧ p.1 ≤ r.start.line)) ::
          (if p.1 = r.start.line then
            [pushContextLine (repeatStr " " r.start.character
              ++ k.red (repeatStr "^" (max 1 (r.«end».character - r.start.character)))
              ++ (if e.rule = "" then "" else " " ++ dimRed k e.rule))]
          else []))).length := by
    obtain ⟨hlt, -⟩ := List.getElem?_eq_some_iff.mp hpos2
    exact hlt
  refine ⟨_, hbody, ?_, ?_⟩
  · show (_ :: _)[(min N r.start.line) + 1]? = _
    rw [List.getElem?_cons_succ]
    exact (List.getElem?_append_left hlen1).trans hpos1
  · show (_ :: _)[(min N r.start.line + 1) + 1]? = _
    rw [List.getElem?_cons_succ]
    exact (List.getElem?_append_left hlen2).trans hpos2

theorem formatError_singleLine_indicator_witness :
    ∃ out, PyrightError.formatErrorLines Kleur.plain eW1 2 = some out ∧
      out[3]? = some ">   6 │ l5" ∧
      out[4]? = some "      │   ^^^^^ reportX" := by
  obtain ⟨out, h1, h2, h3⟩ :=
    formatError_singleLine_indicator Kleur.plain eW1 ⟨⟨5, 2⟩, ⟨5, 7⟩⟩ 2 rfl rfl (by decide)
  exact ⟨out, h1, h2.trans (by decide), h3.trans (by decide)⟩

/-- Counterexample to claim C1 as stated: a single-line diagnostic whose
non-empty context is too short for the window to reach the start line — the
output contains no indicator line at all (the mandated indicator
`"      │ ^^^ reportGeneral"` appears nowhere). -/
theorem formatError_singleLine_indicator_cex :
    PyrightError.formatErrorLines Kleur.plain eC1 2 =
      some ["error s.py:6:1 → reportGeneral", "    4 │ x", " help ~ m1"] ∧
    "      │ ^^^ reportGeneral" ∉
      (PyrightError.formatErrorLines Kleur.plain eC1 2).getD [] := by
  constructor
  · decide
  · decide

/-! ## Claim C3: the multi-line indicator -/

/-- Claim C3 (amended): for a multi-line range with `end.character ≥ 1` whose
end line falls inside the context window, the rendered block carries exactly
one indicator line, placed directly under the end line, consisting of a
single caret at column `end.character − 1` (and the dimmed rule name when the
rule is non-empty). -/
theorem formatError_multiLine_indicator (k : Kleur) (e : PyrightError) (r : Range)
    (N : Nat) (hr : e.range = some r) (hml : r.start.line ≠ r.«end».line)
    (hch : 1 ≤ r.«end».character)
    (h1 : r.start.line - N ≤ r.«end».line)
    (h2 : r.«end».line - (r.start.line - N) < e.context.length) :
    ∃ out, e.formatErrorLines k N = some out ∧
      out = pushFileLine k e.diagnostic ::
        ((e.context.enumFrom (r.start.line - N)).flatMap fun p =>
          pushNumberedLine k (formatContextLine k r p.1 p.2) p.1
              (decide (r.start.line ≤ p.1 ∧ p.1 ≤ r.«end».line)) ::
            (if p.1 = r.«end».line then
              [pushContextLine (repeatStr " " (r.«end».character - 1)
                ++ k.red (repeatStr "^" 1)
                ++ (if e.rule = "" then "" else " " ++ dimRed k e.rule))]
            else []))
        ++ [pushHelpLine k e.message k.red] ∧
      ((e.context.enumFrom (r.start.line - N)).countP fun p =>
        decide (p.1 = r.«end».line)) = 1 ∧
      out[r.«end».line - (r.start.line - N) + 2]? =
        some (pushContextLine (repeatStr " " (r.«end».character - 1)
          ++ k.red (repeatStr "^" 1)
          ++ (if e.rule = "" then "" else " " ++ dimRed k e.rule))) := by
  have hc : e.context ≠ [] := by
    intro hnil
    rw [hnil] at h2
    simp at h2
  have hbody := formatErrorLines_context k e r N hr hc (Or.inr hch)
  simp only [hml, and_false, if_false, ne_eq, not_false_eq_true, and_true,
    List.nil_append] at hbody
  have hpos := flatMap_marker_getElem
    (fun i l => pushNumberedLine k (formatContextLine k r i l) i
      (decide (r.start.line ≤ i ∧ i ≤ r.«end».line)))
    (pushContextLine (repeatStr " " (r.«end».character - 1)
      ++ k.red (repeatStr "^" 1)
      ++ (if e.rule = "" then "" else " " ++ dimRed k e.rule)))
    r.«end».line e.context (r.start.line - N) h1 h2
  obtain ⟨hpos1, hpos2⟩ := hpos
  have hlen2 : r.«end».line - (r.start.line - N) + 1 <
      (((e.context.enumFrom (r.start.line - N)).flatMap fun p =>
        pushNumberedLine k (formatContextLine k r p.1 p.2) p.1
            (decide (r.start.line ≤ p.1 ∧ p.1 ≤ r.«end».line)) ::
          (if p.1 = r.«end».line then
            [pushContextLine (repeatStr " " (r.«end».character - 1)
              ++ k.red (repeatStr "^" 1)
              ++ (if e.rule = "" then "" else " " ++ dimRed k e.rule))]
          else []))).length := by
    obtain ⟨hlt, -⟩ := List.getElem?_eq_some_iff.mp hpos2
    exact hlt
  refine ⟨_, hbody, rfl,
    countP_enumFrom_one r.«end».line e.context (r.start.line - N) h1 h2, ?_⟩
  show (_ :: _)[(r.«end».line - (r.start.line - N) + 1) + 1]? = _
  rw [List.getElem?_cons_succ]
  exact (List.getElem?_append_left hlen2).trans hpos2

theorem formatError_multiLine_indicator_witness :
    ∃ out, PyrightError.formatErrorLines Kleur.plain eW3 2 = some out ∧
      out[6]? = some "      │     ^ r" := by
  obtain ⟨out, hout, -, -, hind⟩ :=
    formatError_multiLine_indicator Kleur.plain eW3 ⟨⟨4, 2⟩, ⟨6, 5⟩⟩ 2 rfl
      (by decide) (by decide) (by decide) (by decide)
  exact ⟨out, hout, hind.trans (by decide)⟩

/-- Counterexample to claim C3 as stated: a multi-line range with
`end.character = 0` whose end line lies in the context window — instead of
emitting an indicator at column `end.character − 1`, formatting fails (the
negative repeat count), so no indicator line is emitted at all. -/
theorem formatError_multiLine_indicator_cex :
    PyrightError.formatErrorLines Kleur.plain eC3 2 = none := by decide

/-! ## Claims about the context window -/

/-- Elementwise characterization of `jsSlice l a b` when `b` is already
clamped to the length: it has `b - a` elements, element `i` being `l[a+i]`. -/
theorem jsSlice_getElem {α : Type} (l : List α) (a b : Nat) (hb : b ≤ l.length) :
    (jsSlice l a b).length = b - a ∧
    ∀ i : Nat, (jsSlice l a b)[i]? = if a + i < b then l[a + i]? else none := by
  constructor
  · simp only [jsSlice, List.length_take, List.length_drop]
    omega
  · intro i
    by_cases h : a + i < b
    · rw [if_pos h]
      have hi : i < b - a := by omega
      show ((l.drop a).take (b - a))[i]? = _
      rw [List.getElem?_take_of_lt hi, List.getElem?_drop]
    · rw [if_neg h]
      apply List.getElem?_eq_none
      simp only [jsSlice, List.length_take, List.length_drop]
      omega

/-- Claim C4 (amended): with a range and a readable file, the context loader
returns exactly the slice of the newline-split lines with indices in
`[max(0, start.line − contextLines), min(totalLines, end.line + contextLines + 1))`
(elementwise and in length); and provided the range is well-formed
(`start.line ≤ end.line`) and `start.line` exists in the file, the window
contains the start line (at offset `min contextLines start.line`) and the
context is non-empty. -/
theorem getContext_window_characterization (fs : String → Option String)
    (d : PyrightDiagnostic) (r : Range) (content : String) (N : Nat)
    (hr : d.range = some r) (hf : fs d.file = some content) :
    ((getContext fs d N).length
        = min (jsSplitNewline content).length (r.«end».line + N + 1) - (r.start.line - N)
      ∧ ∀ i : Nat, (getContext fs d N)[i]? =
          if (r.start.line - N) + i
              < min (jsSplitNewline content).length (r.«end».line + N + 1)
          then (jsSplitNewline content)[(r.start.line - N) + i]? else none)
    ∧ (r.start.line ≤ r.«end».line → r.start.line < (jsSplitNewline content).length →
        (getContext fs d N)[min N r.start.line]? = (jsSplitNewline content)[r.start.line]?
        ∧ ((jsSplitNewline content)[r.start.line]?).isSome
        ∧ getContext fs d N ≠ []) := by
  have hg : getContext fs d N =
      jsSlice (jsSplitNewline content) (r.start.line - N)
        (min (jsSplitNewline content).length (r.«end».line + N + 1)) := by
    simp only [getContext, hr, hf]
    rw [show (max 0 ((r.start.line : Int) - (N : Int))).toNat = r.start.line - N by omega]
  have hmain := jsSlice_getElem (jsSplitNewline content) (r.start.line - N)
    (min (jsSplitNewline content).length (r.«end».line + N + 1)) (min_le_left _ _)
  constructor
  · rw [hg]
    exact hmain
  · intro hwf hin
    have hidx : (r.start.line - N) + min N r.start.line = r.start.line := by omega
    have hlt : (r.start.line - N) + min N r.start.line
        < min (jsSplitNewline content).length (r.«end».line + N + 1) := by
      omega
    refine ⟨?_, ?_, ?_⟩
    · rw [hg]
      have h := hmain.2 (min N r.start.line)
      rw [if_pos hlt, hidx] at h
      exact h
    · rw [List.getElem?_eq_getElem hin]
      rfl
    · intro hnil
      have hlen := hmain.1
      rw [← hg, hnil] at hlen
      simp only [List.length_nil] at hlen
      omega

theorem getContext_window_characterization_witness :
    (getContext fs4 d4 2).length = 5 ∧
    (getContext fs4 d4 2)[2]? = (jsSplitNewline content4)[5]? ∧
    getContext fs4 d4 2 ≠ [] := by
  have h := getContext_window_characterization fs4 d4 ⟨⟨5, 0⟩, ⟨5, 4⟩⟩ content4 2 rfl rfl
  refine ⟨h.1.1.trans (by decide), ?_, (h.2 (by decide) (by decide)).2.2⟩
  exact (h.2 (by decide) (by decide)).1

/-- Counterexample to claim C4 as stated: a diagnostic whose `start.line = 6`
points past the end of a 5-line file yields the non-empty context `["e"]`
(the slice `[4, 5)`), yet the window `[4, 4 + 1)` does not include the start
line — the "window includes the start line" conjunct fails without the
well-formedness hypotheses. -/
theorem getContext_window_cex :
    getContext fsC4 dC4 2 = ["e"] ∧
    ¬(4 ≤ 6 ∧ 6 < 4 + (getContext fsC4 dC4 2).length) := by
  constructor
  · decide
  · decide

/-- Claim C7 (amended): for `start.line = end.line = 10`, `contextLines = 2`
on a 20-line file, the loaded context is the 5-line slice of zero-based lines
8 through 12 — the bound `end.line + contextLines + 1 = 13` is exclusive, so
the window is `[8, 13)`, not 6 lines through line 13. -/
theorem getContext_bounds_example (fs : String → Option String) (d : PyrightDiagnostic)
    (r : Range) (content : String)
    (hr : d.range = some r) (hs : r.start.line = 10) (he : r.«end».line = 10)
    (hf : fs d.file = some content) (hlen : (jsSplitNewline content).length = 20) :
    getContext fs d 2 = ((jsSplitNewline content).drop 8).take 5 ∧
    (getContext fs d 2).length = 5 := by
  have hg : getContext fs d 2 =
      jsSlice (jsSplitNewline content) 8 (min (jsSplitNewline content).length 13) := by
    simp only [getContext, hr, hf, hs, he]
    rfl
  constructor
  · rw [hg, hlen, show min (20 : Nat) 13 = 13 by decide]
    rfl
  · rw [hg]
    simp only [jsSlice, List.length_take, List.length_drop, hlen]
    omega

theorem getContext_bounds_example_witness :
    getContext fs7 d7 2 = ["a8", "a9", "a10", "a11", "a12"] ∧
    (getContext fs7 d7 2).length = 5 := by
  have h := getContext_bounds_example fs7 d7 ⟨⟨10, 0⟩, ⟨10, 4⟩⟩ content20 rfl rfl rfl rfl
    (by decide)
  exact ⟨h.1.trans (by decide), h.2⟩

/-- Counterexample to claim C7 as stated: the loaded context has 5 lines, not
6, and zero-based line 13 (`"a13"`) is not part of it — the slice bound
`end.line + contextLines + 1` is exclusive. -/
theorem getContext_bounds_example_cex :
    (getContext fs7 d7 2).length ≠ 6 ∧ "a13" ∉ getContext fs7 d7 2 := by
  constructor
  · decide
  · decide

end PyrightPretty
